import Mathlib

/-!
Verification development for the financial calculation engine of the
loan-calculator repository (loanCalculations.ts, the income growth module and
the advanced metrics module).

Modelling choices.  JavaScript numbers are modelled as exact rationals; the
display rounding of Number(x.toFixed(2)) is modelled by round2.  Where a claim
depends on a computation producing the non-finite JS values Infinity or NaN,
division is modelled as an Option-valued operation (none meaning a non-finite
result); everywhere else the code's divisions are taken in contexts where the
denominator is provably nonzero.  The month-by-month while loops of the source
are modelled by structural recursion on a fuel argument whose initial value
makes the recursion run exactly as long as the source loop does (the loop
counters of the source are bounded by the tenure).
-/

namespace LoanCalc

/-- Frequency of extra payments (source: the extraPaymentFrequency union type
in loanCalculations.ts). -/
inductive PaymentFreq where
  | monthly
  | quarterly
  | semiannually
  | annually
deriving DecidableEq

/-- Source: interface LoanParams in loanCalculations.ts. -/
structure LoanParams where
  loanAmount : ℚ
  annualInterestRate : ℚ
  loanTenureMonths : ℤ
  extraPayment : ℚ
  extraPaymentFrequency : PaymentFreq
  extraPaymentStartMonth : ℤ
deriving DecidableEq

/-- Source: interface AmortizationRow in loanCalculations.ts. -/
structure AmortizationRow where
  month : ℕ
  payment : ℚ
  principal : ℚ
  interest : ℚ
  remainingBalance : ℚ
  extraPayment : ℚ
  totalPayment : ℚ
deriving DecidableEq

/-- Rounding to two decimals, modelling Number(x.toFixed(2)) of the source. -/
def round2 (x : ℚ) : ℚ := ((round (x * 100) : ℤ) : ℚ) / 100

/-- Monthly rate, annualInterestRate / 12 / 100 (source: ratePerMonth). -/
def monthlyRate (p : LoanParams) : ℚ := p.annualInterestRate / 12 / 100

/-- Source: calculateEMI in loanCalculations.ts.  The principal is clamped at
0, the tenure at 1; the isFinite guard of the source is modelled by the
explicit zero-denominator test, the only way the formula can be non-finite in
exact rational arithmetic. -/
def calculateEMI (p : LoanParams) : ℚ :=
  if max 0 p.loanAmount = 0 ∨ max 1 p.loanTenureMonths = 0 then 0
  else if p.annualInterestRate = 0 then
    max 0 p.loanAmount / ((max 1 p.loanTenureMonths : ℤ) : ℚ)
  else if (1 + monthlyRate p) ^ (max 1 p.loanTenureMonths).toNat - 1 = 0 then 0
  else
    max 0 p.loanAmount * monthlyRate p * (1 + monthlyRate p) ^ (max 1 p.loanTenureMonths).toNat /
      ((1 + monthlyRate p) ^ (max 1 p.loanTenureMonths).toNat - 1)

/-- Extra payment applied in a given month (source: the switch statement inside
generateAmortizationSchedule). -/
def extraFor (p : LoanParams) (month : ℕ) : ℚ :=
  if p.extraPaymentStartMonth ≤ (month : ℤ) then
    match p.extraPaymentFrequency with
    | .monthly => p.extraPayment
    | .quarterly =>
      if ((month : ℤ) - p.extraPaymentStartMonth) % 3 = 0 then p.extraPayment else 0
    | .semiannually =>
      if ((month : ℤ) - p.extraPaymentStartMonth) % 6 = 0 then p.extraPayment else 0
    | .annually =>
      if ((month : ℤ) - p.extraPaymentStartMonth) % 12 = 0 then p.extraPayment else 0
  else 0

/-- The combined principal reduction of a month: scheduled principal plus extra
payment, clamped at the remaining balance (source: the principal variable after
the overpayment adjustment). -/
def loanPrincipal (p : LoanParams) (emi balance : ℚ) (month : ℕ) : ℚ :=
  if balance < emi - balance * monthlyRate p + extraFor p month then balance
  else emi - balance * monthlyRate p + extraFor p month

/-- Remaining balance after a month (source: remainingBalance -= principal). -/
def loanNext (p : LoanParams) (emi balance : ℚ) (month : ℕ) : ℚ :=
  balance - loanPrincipal p emi balance month

/-- The while loop of generateAmortizationSchedule, as structural recursion on
fuel.  Starting from month 1 with fuel = tenure, the fuel runs out exactly when
month exceeds the tenure, so the guard and the fuel stop the recursion at the
same point as the source loop. -/
def scheduleFrom (p : LoanParams) (emi : ℚ) : ℕ → ℚ → ℕ → List AmortizationRow
  | 0, _, _ => []
  | fuel + 1, balance, month =>
    if 0 < balance ∧ (month : ℤ) ≤ p.loanTenureMonths then
      { month := month
        payment := round2 emi
        principal := round2 (loanPrincipal p emi balance month)
        interest := round2 (balance * monthlyRate p)
        remainingBalance := round2 (loanNext p emi balance month)
        extraPayment := round2 (extraFor p month)
        totalPayment := round2 emi } ::
        scheduleFrom p emi fuel (loanNext p emi balance month) (month + 1)
    else []

/-- Source: generateAmortizationSchedule in loanCalculations.ts. -/
def generateAmortizationSchedule (p : LoanParams) : List AmortizationRow :=
  if calculateEMI p = 0 then []
  else scheduleFrom p (calculateEMI p) p.loanTenureMonths.toNat p.loanAmount 1

/-- Result record of calculateLoanSummary. -/
structure LoanSummary where
  monthlyEMI : ℚ
  totalPayments : ℚ
  totalInterest : ℚ
  totalExtraPayments : ℚ
  totalTenureMonths : ℕ
deriving DecidableEq

/-- Source: calculateLoanSummary in loanCalculations.ts. -/
def calculateLoanSummary : List AmortizationRow → LoanSummary
  | [] => { monthlyEMI := 0, totalPayments := 0, totalInterest := 0
            totalExtraPayments := 0, totalTenureMonths := 0 }
  | h :: t =>
    { monthlyEMI := h.payment
      totalPayments := ((h :: t).map fun r => r.principal + r.interest).sum
      totalInterest := ((h :: t).map fun r => r.interest).sum
      totalExtraPayments := ((h :: t).map fun r => r.extraPayment).sum
      totalTenureMonths := (h :: t).length }

/-- Error taxonomy of the specification (section 7). -/
inductive CalcError where
  | invalidParameters
deriving DecidableEq

/-- Modelled from the spec (for the refinement comparison of claim C3): the
computeInstallment contract as the spec words it, failing with
InvalidParameters when principal is nonpositive or tenure is nonpositive, and
otherwise returning the standard fixed-installment formula with the zero-rate
special case. -/
def computeInstallmentSpec (p : LoanParams) : Except CalcError ℚ :=
  if p.loanAmount ≤ 0 ∨ p.loanTenureMonths ≤ 0 then .error .invalidParameters
  else if p.annualInterestRate = 0 then
    .ok (p.loanAmount / (p.loanTenureMonths : ℚ))
  else
    .ok (p.loanAmount * monthlyRate p * (1 + monthlyRate p) ^ p.loanTenureMonths.toNat /
      ((1 + monthlyRate p) ^ p.loanTenureMonths.toNat - 1))

end LoanCalc

namespace Adv

/-- Source: interface AdvancedAnalysisParams in the advanced metrics module. -/
structure AdvancedAnalysisParams where
  loanAmount : ℚ
  loanInterestRate : ℚ
  loanTenureMonths : ℕ
  monthlyEMI : ℚ
  initialAmount : ℚ
  monthlyInvestment : ℚ
  expectedReturn : ℚ
  inflationRate : ℚ
deriving DecidableEq

/-- JS division with a finiteness tag: none models the non-finite value
(Infinity or NaN) that JS produces when dividing a finite number by zero. -/
def jsDiv (a b : ℚ) : Option ℚ := if b = 0 then none else some (a / b)

/-- Source: totalLoanPayment inside calculateAdvancedMetrics. -/
def totalLoanPayment (p : AdvancedAnalysisParams) : ℚ :=
  p.monthlyEMI * (p.loanTenureMonths : ℚ)

/-- Source: totalInterestPaid inside calculateAdvancedMetrics. -/
def totalInterestPaid (p : AdvancedAnalysisParams) : ℚ :=
  totalLoanPayment p - p.loanAmount

/-- Source: effectiveInterestRate inside calculateAdvancedMetrics, i.e.
(totalInterestPaid / loanAmount) * 100 / (loanTenureMonths / 12); none when the
JS value is non-finite (division by zero principal or zero tenure). -/
def effectiveInterestRate (p : AdvancedAnalysisParams) : Option ℚ :=
  (jsDiv (totalInterestPaid p) p.loanAmount).bind fun x =>
    jsDiv (x * 100) ((p.loanTenureMonths : ℚ) / 12)

/-- Source: loanCostRatio inside calculateAdvancedMetrics. -/
def loanCostRatio (p : AdvancedAnalysisParams) : Option ℚ :=
  (jsDiv (totalInterestPaid p) p.loanAmount).map (· * 100)

/-- Source: calculateFutureValue(principal, monthlyContribution, monthlyRate,
months) of the advanced metrics module: closed-form future value; none models
the NaN that JS produces when monthlyRate is 0 (the (pow-1)/rate term is 0/0). -/
def calculateFutureValue (principal contribution rate : ℚ) (months : ℕ) : Option ℚ :=
  (jsDiv ((1 + rate) ^ months - 1) rate).map fun x =>
    principal * (1 + rate) ^ months + contribution * x

/-- Source: totalInvestmentValue inside calculateAdvancedMetrics. -/
def totalInvestmentValue (p : AdvancedAnalysisParams) : Option ℚ :=
  calculateFutureValue p.initialAmount p.monthlyInvestment
    (p.expectedReturn / 12 / 100) p.loanTenureMonths

/-- Source: totalInvestmentContributions inside calculateAdvancedMetrics. -/
def totalInvestmentContributions (p : AdvancedAnalysisParams) : ℚ :=
  p.initialAmount + p.monthlyInvestment * (p.loanTenureMonths : ℚ)

/-- Source: totalEarnings inside calculateAdvancedMetrics. -/
def totalEarnings (p : AdvancedAnalysisParams) : Option ℚ :=
  (totalInvestmentValue p).map (· - totalInvestmentContributions p)

/-- Source: wealthAccumulationRate inside calculateAdvancedMetrics, i.e.
(totalEarnings / totalInvestmentContributions) * 100. -/
def wealthAccumulationRate (p : AdvancedAnalysisParams) : Option ℚ :=
  (totalEarnings p).bind fun e =>
    (jsDiv e (totalInvestmentContributions p)).map (· * 100)

/-- Source: investmentVsLoanRatio inside calculateAdvancedMetrics, i.e.
(totalInvestmentValue / totalLoanPayment) * 100. -/
def investmentVsLoanRatio (p : AdvancedAnalysisParams) : Option ℚ :=
  (totalInvestmentValue p).bind fun v =>
    (jsDiv v (totalLoanPayment p)).map (· * 100)

/-- Source: realReturnAfterInflation inside calculateAdvancedMetrics, i.e.
expectedReturn - (inflationRate || 6).  The JS or-default treats an
inflationRate of 0 as absent and substitutes 6. -/
def realReturnAfterInflation (p : AdvancedAnalysisParams) : ℚ :=
  p.expectedReturn - (if p.inflationRate = 0 then 6 else p.inflationRate)

/-- Source: calculateROI in the advanced metrics module.  Note the source
passes expectedReturn / 12 (not / 12 / 100) as the monthly rate to
calculateFutureValue; the guard on nonpositive contributions returns 0 before
any division. -/
def calculateROI (p : AdvancedAnalysisParams) : Option ℚ :=
  if totalInvestmentContributions p ≤ 0 then some 0
  else
    (calculateFutureValue p.initialAmount p.monthlyInvestment
      (p.expectedReturn / 12) p.loanTenureMonths).map fun f =>
      (f - totalInvestmentContributions p) / totalInvestmentContributions p * 100

/-- Source: calculateRemainingLoanBalance in the advanced metrics module:
closed-form remaining balance after currentMonth months.  Every call in the
source has currentMonth < totalMonths, where the natural subtraction below
agrees with JS subtraction; with a zero annual rate the JS value is NaN while
the rational model returns 0, and the theorems below only use a nonzero rate. -/
def calculateRemainingLoanBalance (principal annualRate : ℚ)
    (totalMonths currentMonth : ℕ) : ℚ :=
  principal * (annualRate / 12 / 100) * (1 + annualRate / 12 / 100) ^ totalMonths /
      ((1 + annualRate / 12 / 100) ^ totalMonths - 1) *
    (((1 + annualRate / 12 / 100) ^ (totalMonths - currentMonth) - 1) /
      (annualRate / 12 / 100 * (1 + annualRate / 12 / 100) ^ (totalMonths - currentMonth)))

/-- The while loop of calculateBreakEvenPoint, as structural recursion on fuel.
Starting from month 0 with fuel = loanTenureMonths, the fuel runs out exactly
when month reaches the tenure, where the source guard also stops. -/
def breakEvenAux (p : AdvancedAnalysisParams) (rate : ℚ) :
    ℕ → ℕ → ℚ → ℚ → ℕ
  | 0, month, _, _ => month
  | fuel + 1, month, investmentValue, loanBalance =>
    if investmentValue < loanBalance ∧ month < p.loanTenureMonths then
      breakEvenAux p rate fuel (month + 1)
        (investmentValue * (1 + rate) + p.monthlyInvestment)
        (calculateRemainingLoanBalance p.loanAmount p.loanInterestRate
          p.loanTenureMonths month)
    else month

/-- Source: calculateBreakEvenPoint in the advanced metrics module. -/
def calculateBreakEvenPoint (p : AdvancedAnalysisParams) : ℕ :=
  breakEvenAux p (p.expectedReturn / 12 / 100) p.loanTenureMonths 0
    p.initialAmount p.loanAmount

end Adv

namespace Income

/-- Source: the contributionFrequency union type of the income module. -/
inductive ContributionFreq where
  | monthly
  | quarterly
  | annually
  | oneTime
deriving DecidableEq

/-- Source: interface IncomeParams in the income module. -/
structure IncomeParams where
  initialAmount : ℚ
  periodicContribution : ℚ
  contributionFrequency : ContributionFreq
  annualGrowthRate : ℚ
  timeHorizonMonths : ℕ

/-- Source: interface IncomeScheduleRow in the income module.  Balances are
real numbers because the monthly rate is a real twelfth root. -/
structure IncomeScheduleRow where
  month : ℕ
  startingBalance : ℝ
  contribution : ℝ
  growth : ℝ
  endingBalance : ℝ

/-- Contribution applied in a given month (source: the switch statement inside
calculateFutureValue of the income module). -/
def contributionFor (p : IncomeParams) (month : ℕ) : ℚ :=
  match p.contributionFrequency with
  | .monthly => p.periodicContribution
  | .quarterly => if month % 3 = 1 then p.periodicContribution else 0
  | .annually => if month % 12 = 1 then p.periodicContribution else 0
  | .oneTime => if month = 1 then p.periodicContribution else 0

/-- Source: monthlyRate of the income module, the geometric monthly rate
(1 + annualGrowthRate/100)^(1/12) - 1. -/
noncomputable def monthlyGrowthRate (p : IncomeParams) : ℝ :=
  (1 + (p.annualGrowthRate : ℝ) / 100) ^ ((1 : ℝ) / 12) - 1

/-- The for loop of calculateFutureValue of the income module: one iteration
per month, running exactly timeHorizonMonths times. -/
noncomputable def fvRowsFrom (p : IncomeParams) (rate : ℝ) :
    ℕ → ℝ → ℕ → List IncomeScheduleRow
  | 0, _, _ => []
  | k + 1, balance, month =>
    { month := month
      startingBalance := balance
      contribution := (contributionFor p month : ℝ)
      growth := (balance + (contributionFor p month : ℝ)) * rate
      endingBalance := balance + (contributionFor p month : ℝ) +
        (balance + (contributionFor p month : ℝ)) * rate } ::
      fvRowsFrom p rate k
        (balance + (contributionFor p month : ℝ) +
          (balance + (contributionFor p month : ℝ)) * rate) (month + 1)

/-- Source: calculateFutureValue(params) of the income module. -/
noncomputable def calculateFutureValue (p : IncomeParams) : List IncomeScheduleRow :=
  fvRowsFrom p (monthlyGrowthRate p) p.timeHorizonMonths (p.initialAmount : ℝ) 1

end Income

/-- Claim C4: for every LoanParams with positive principal, positive tenure and
annual interest rate exactly 0, calculateEMI returns exactly
principal / tenure. -/
theorem C4_theorem (p : LoanCalc.LoanParams) (hP : 0 < p.loanAmount)
    (ht : 0 < p.loanTenureMonths) (hr : p.annualInterestRate = 0) :
    LoanCalc.calculateEMI p = p.loanAmount / ((p.loanTenureMonths : ℤ) : ℚ) := by
  have h1 : max (0 : ℚ) p.loanAmount = p.loanAmount := max_eq_right hP.le
  have h2 : max (1 : ℤ) p.loanTenureMonths = p.loanTenureMonths := max_eq_right ht
  unfold LoanCalc.calculateEMI
  rw [if_neg, if_pos hr]
  · rw [h1, h2]
  · rw [h1, h2]
    push_neg
    exact ⟨ne_of_gt hP, by omega⟩

/-- Witness for C4 at a concrete zero-rate loan. -/
theorem C4_witness :
    LoanCalc.calculateEMI ⟨120000, 0, 12, 0, .monthly, 1⟩ = 10000 := by
  rw [C4_theorem ⟨120000, 0, 12, 0, .monthly, 1⟩ (by norm_num) (by decide) rfl]
  norm_num

/-- Counterexample for claim C3: at a negative principal the spec-side
contract computeInstallmentSpec fails with InvalidParameters, but calculateEMI
does not fail: it returns the ordinary value 0 (the clamped principal). -/
theorem C3_counterexample :
    LoanCalc.computeInstallmentSpec ⟨-1000, 10, 12, 0, .monthly, 1⟩ =
      Except.error LoanCalc.CalcError.invalidParameters ∧
    LoanCalc.calculateEMI ⟨-1000, 10, 12, 0, .monthly, 1⟩ = 0 := by
  constructor
  · norm_num [LoanCalc.computeInstallmentSpec]
  · norm_num [LoanCalc.calculateEMI]

/-- Claim C3 as amended: calculateEMI never signals invalid parameters; a
nonpositive principal yields the result 0 (it is clamped to 0), and a
nonpositive tenure is clamped to 1 rather than rejected. -/
theorem C3_theorem (p : LoanCalc.LoanParams) :
    (p.loanAmount ≤ 0 → LoanCalc.calculateEMI p = 0) ∧
    (p.loanTenureMonths ≤ 0 →
      LoanCalc.calculateEMI p = LoanCalc.calculateEMI { p with loanTenureMonths := 1 }) := by
  obtain ⟨la, rate, t, ex, fr, st⟩ := p
  constructor
  · intro h
    unfold LoanCalc.calculateEMI
    rw [if_pos (Or.inl (max_eq_left h))]
  · intro h
    replace h : t ≤ 0 := h
    show LoanCalc.calculateEMI ⟨la, rate, t, ex, fr, st⟩ =
      LoanCalc.calculateEMI ⟨la, rate, 1, ex, fr, st⟩
    unfold LoanCalc.calculateEMI
    rw [show max (1 : ℤ) t = 1 from max_eq_left (by omega),
      show max (1 : ℤ) 1 = 1 from max_self 1]
    simp [LoanCalc.monthlyRate]

/-- Witness for C3 at a concrete loan with negative principal and tenure. -/
theorem C3_witness :
    LoanCalc.calculateEMI ⟨-1000, 10, -5, 0, .monthly, 1⟩ = 0 ∧
    LoanCalc.calculateEMI ⟨-1000, 10, -5, 0, .monthly, 1⟩ =
      LoanCalc.calculateEMI ⟨-1000, 10, 1, 0, .monthly, 1⟩ :=
  ⟨(C3_theorem _).1 (by norm_num), (C3_theorem _).2 (by decide)⟩

/-- Claim C10: calculateEMI is a total function (it never throws); a
nonpositive principal is clamped to 0 and yields installment 0, a tenure below
1 is clamped to 1, and the only non-finite value of the formula in exact
arithmetic (a zero denominator) is normalized to 0. -/
theorem C10_theorem (p : LoanCalc.LoanParams) :
    (p.loanAmount ≤ 0 → LoanCalc.calculateEMI p = 0) ∧
    (LoanCalc.calculateEMI p =
      LoanCalc.calculateEMI { p with loanTenureMonths := max 1 p.loanTenureMonths }) ∧
    (p.annualInterestRate ≠ 0 →
      (1 + LoanCalc.monthlyRate p) ^ (max 1 p.loanTenureMonths).toNat - 1 = 0 →
      LoanCalc.calculateEMI p = 0) := by
  obtain ⟨la, rate, t, ex, fr, st⟩ := p
  refine ⟨?_, ?_, ?_⟩
  · intro h
    unfold LoanCalc.calculateEMI
    rw [if_pos (Or.inl (max_eq_left h))]
  · show LoanCalc.calculateEMI ⟨la, rate, t, ex, fr, st⟩ =
      LoanCalc.calculateEMI ⟨la, rate, max 1 t, ex, fr, st⟩
    unfold LoanCalc.calculateEMI
    rw [show max (1 : ℤ) (max 1 t) = max 1 t by rw [← max_assoc, max_self]]
    simp [LoanCalc.monthlyRate]
  · intro h1 h2
    unfold LoanCalc.calculateEMI
    dsimp only at h1 h2 ⊢
    by_cases ha : max (0 : ℚ) la = 0 ∨ max (1 : ℤ) t = 0
    · rw [if_pos ha]
    · rw [if_neg ha, if_neg h1, if_pos h2]

/-- Witness for C10: a negative principal gives 0, a negative tenure is
clamped to 1, and an annual rate of -2400 (monthly rate -2, even tenure) makes
the formula denominator vanish and the result is normalized to 0. -/
theorem C10_witness :
    LoanCalc.calculateEMI ⟨-500, 10, 12, 0, .monthly, 1⟩ = 0 ∧
    LoanCalc.calculateEMI ⟨100000, 10, -3, 0, .monthly, 1⟩ =
      LoanCalc.calculateEMI ⟨100000, 10, max 1 (-3), 0, .monthly, 1⟩ ∧
    LoanCalc.calculateEMI ⟨100, -2400, 2, 0, .monthly, 1⟩ = 0 :=
  ⟨(C10_theorem _).1 (by norm_num),
   (C10_theorem _).2.1,
   (C10_theorem _).2.2 (by norm_num)
     (by norm_num [LoanCalc.monthlyRate]
         rw [show Int.toNat 2 = 2 from rfl]
         norm_num)⟩

/-- Counterexample for claim C6: with inflationRate = 0 and expectedReturn =
10, the code substitutes the or-default 6 for the zero inflation rate, so
realReturnAfterInflation is 4, not 10 - 0. -/
theorem C6_counterexample :
    Adv.realReturnAfterInflation ⟨1000000, 8, 240, 8679, 0, 0, 10, 0⟩ = 4 ∧
    (4 : ℚ) ≠ 10 - 0 := by
  constructor
  · norm_num [Adv.realReturnAfterInflation]
  · norm_num

/-- Claim C6 as amended: realReturnAfterInflation equals expectedReturn minus
inflationRate by simple subtraction whenever inflationRate is nonzero; when
inflationRate is exactly 0 the or-default replaces it with 6, giving
expectedReturn - 6. -/
theorem C6_theorem (p : Adv.AdvancedAnalysisParams) :
    (p.inflationRate ≠ 0 →
      Adv.realReturnAfterInflation p = p.expectedReturn - p.inflationRate) ∧
    (p.inflationRate = 0 →
      Adv.realReturnAfterInflation p = p.expectedReturn - 6) := by
  unfold Adv.realReturnAfterInflation
  constructor
  · intro h; rw [if_neg h]
  · intro h; rw [if_pos h]

/-- Witness for C6 at a nonzero and at a zero inflation rate. -/
theorem C6_witness :
    Adv.realReturnAfterInflation ⟨0, 0, 0, 0, 0, 0, 10, 2⟩ = 10 - 2 ∧
    Adv.realReturnAfterInflation ⟨0, 0, 0, 0, 0, 0, 12, 0⟩ = 12 - 6 :=
  ⟨(C6_theorem _).1 (by norm_num), (C6_theorem _).2 rfl⟩

/-- Counterexample for claim C5: with a zero loan principal,
calculateAdvancedMetrics divides by zero without any guard, so the
effectiveInterestRate and loanCostRatio outputs are non-finite (none), not 0;
with zero total contributions the wealthAccumulationRate output is likewise
non-finite. -/
theorem C5_counterexample :
    Adv.effectiveInterestRate ⟨0, 10, 12, 100, 0, 0, 0, 6⟩ = none ∧
    Adv.loanCostRatio ⟨0, 10, 12, 100, 0, 0, 0, 6⟩ = none ∧
    Adv.wealthAccumulationRate ⟨0, 10, 12, 100, 0, 0, 0, 6⟩ = none := by
  refine ⟨?_, ?_, ?_⟩ <;>
    norm_num [Adv.effectiveInterestRate, Adv.loanCostRatio,
      Adv.wealthAccumulationRate, Adv.totalEarnings, Adv.totalInvestmentValue,
      Adv.calculateFutureValue, Adv.jsDiv]

/-- Claim C5 as amended: only calculateROI guards division by zero, returning
0 when the total contributions are nonpositive; calculateAdvancedMetrics has
no guard, so a zero loan principal makes effectiveInterestRate and
loanCostRatio non-finite and zero total contributions make
wealthAccumulationRate non-finite, rather than 0. -/
theorem C5_theorem (p : Adv.AdvancedAnalysisParams) :
    (Adv.totalInvestmentContributions p ≤ 0 → Adv.calculateROI p = some 0) ∧
    (p.loanAmount = 0 →
      Adv.effectiveInterestRate p = none ∧ Adv.loanCostRatio p = none) ∧
    (Adv.totalInvestmentContributions p = 0 →
      Adv.wealthAccumulationRate p = none) := by
  refine ⟨?_, ?_, ?_⟩
  · intro h
    unfold Adv.calculateROI
    rw [if_pos h]
  · intro h
    constructor <;>
      simp [Adv.effectiveInterestRate, Adv.loanCostRatio, Adv.jsDiv, h]
  · intro h
    unfold Adv.wealthAccumulationRate
    cases htv : Adv.totalEarnings p with
    | none => rfl
    | some v => simp [Adv.jsDiv, h]

/-- Witness for C5 at concrete inputs with zero contributions and zero
principal. -/
theorem C5_witness :
    Adv.calculateROI ⟨1000, 10, 12, 100, 0, 0, 5, 6⟩ = some 0 ∧
    (Adv.effectiveInterestRate ⟨0, 10, 24, 50, 3, 2, 5, 6⟩ = none ∧
      Adv.loanCostRatio ⟨0, 10, 24, 50, 3, 2, 5, 6⟩ = none) ∧
    Adv.wealthAccumulationRate ⟨500, 10, 12, 100, 0, 0, 5, 6⟩ = none :=
  ⟨(C5_theorem _).1 (by norm_num [Adv.totalInvestmentContributions]),
   (C5_theorem _).2.1 rfl,
   (C5_theorem _).2.2 (by norm_num [Adv.totalInvestmentContributions])⟩

/-- The closed-form remaining balance is positive while months remain, for a
positive principal and a positive annual rate. -/
lemma RLB_pos (P rate : ℚ) (n m : ℕ) (hP : 0 < P) (hr : 0 < rate) (hm : m < n) :
    0 < Adv.calculateRemainingLoanBalance P rate n m := by
  unfold Adv.calculateRemainingLoanBalance
  set r := rate / 12 / 100 with hrdef
  have hr' : 0 < r := by positivity
  have h1 : (1 : ℚ) < 1 + r := by linarith
  have hA : 1 < (1 + r) ^ n := one_lt_pow₀ h1 (by omega)
  have hAr : 1 < (1 + r) ^ (n - m) := one_lt_pow₀ h1 (by omega)
  have hemi : 0 < P * r * (1 + r) ^ n / ((1 + r) ^ n - 1) := by
    apply div_pos
    · have hp1 : (0 : ℚ) < (1 + r) ^ n := by positivity
      positivity
    · linarith
  apply mul_pos hemi
  apply div_pos
  · linarith
  · have hp2 : (0 : ℚ) < (1 + r) ^ (n - m) := by positivity
    positivity

/-- With a zero investment rate, zero contributions and a flat zero investment
balance, the break-even loop runs through every month and returns the tenure. -/
lemma breakEven_flat (p : Adv.AdvancedAnalysisParams) (hP : 0 < p.loanAmount)
    (hr : 0 < p.loanInterestRate) (hmi : p.monthlyInvestment = 0) :
    ∀ fuel month loan, month + fuel = p.loanTenureMonths → 0 < loan →
      Adv.breakEvenAux p 0 fuel month 0 loan = p.loanTenureMonths := by
  intro fuel
  induction fuel with
  | zero =>
    intro month loan hsum _
    simp only [Adv.breakEvenAux]
    omega
  | succ fuel ih =>
    intro month loan hsum hpos
    simp only [Adv.breakEvenAux]
    rw [if_pos ⟨hpos, by omega⟩]
    rw [show (0 : ℚ) * (1 + 0) + p.monthlyInvestment = 0 by rw [hmi]; ring]
    exact ih (month + 1) _ (by omega) (RLB_pos _ _ _ _ hP hr (by omega))

/-- Counterexample for claim C7: investment growth rate 0, monthly investment
0, initial amount 900 strictly below the loan amount 1000, tenure 6: the loop
exits at month 2 because the closed-form loan balance falls below 900, so
breakEvenMonth is 2, not the tenure 6. -/
theorem C7_counterexample :
    Adv.calculateBreakEvenPoint ⟨1000, 12, 6, 0, 900, 0, 0, 6⟩ = 2 ∧
    (900 : ℚ) < 1000 ∧ (2 : ℕ) ≠ 6 := by
  refine ⟨?_, by norm_num, by norm_num⟩
  norm_num [Adv.calculateBreakEvenPoint, Adv.breakEvenAux,
    Adv.calculateRemainingLoanBalance]

/-- Claim C7 as amended: with investment growth rate 0 and monthly investment
0 the investment balance stays flat at the initial amount, and the loop runs to
the tenure only if that flat balance never reaches the declining closed-form
loan balance; in particular with initial amount 0 (and positive loan amount and
positive loan interest rate) breakEvenMonth equals tenureMonths, while an
initial amount that is positive but below the loan amount can cross the
declining balance strictly before the tenure. -/
theorem C7_theorem (p : Adv.AdvancedAnalysisParams) (he : p.expectedReturn = 0)
    (hmi : p.monthlyInvestment = 0) (hi : p.initialAmount = 0)
    (hP : 0 < p.loanAmount) (hr : 0 < p.loanInterestRate) :
    Adv.calculateBreakEvenPoint p = p.loanTenureMonths := by
  unfold Adv.calculateBreakEvenPoint
  rw [he, hi, show (0 : ℚ) / 12 / 100 = 0 by norm_num]
  exact breakEven_flat p hP hr hmi p.loanTenureMonths 0 p.loanAmount (by omega) hP

/-- Witness for C7 at a concrete zero-growth, zero-contribution input. -/
theorem C7_witness :
    Adv.calculateBreakEvenPoint ⟨1000, 12, 6, 0, 0, 0, 0, 6⟩ = 6 :=
  C7_theorem ⟨1000, 12, 6, 0, 0, 0, 0, 6⟩ rfl rfl rfl (by norm_num) (by norm_num)

/-- Shape of the rows produced by the income growth loop: starting at any
month and balance, with k rows of fuel the loop emits exactly k rows with
consecutive months, and every row satisfies the invest-then-grow invariants. -/
lemma fvRowsFrom_spec (p : Income.IncomeParams) (rate : ℝ) :
    ∀ (k : ℕ) (b : ℝ) (m : ℕ),
      (Income.fvRowsFrom p rate k b m).length = k ∧
      ∀ (i : ℕ) (h : i < (Income.fvRowsFrom p rate k b m).length),
        ((Income.fvRowsFrom p rate k b m).get ⟨i, h⟩).month = m + i ∧
        ((Income.fvRowsFrom p rate k b m).get ⟨i, h⟩).endingBalance =
          ((Income.fvRowsFrom p rate k b m).get ⟨i, h⟩).startingBalance +
            ((Income.fvRowsFrom p rate k b m).get ⟨i, h⟩).contribution +
            ((Income.fvRowsFrom p rate k b m).get ⟨i, h⟩).growth ∧
        ((Income.fvRowsFrom p rate k b m).get ⟨i, h⟩).growth =
          (((Income.fvRowsFrom p rate k b m).get ⟨i, h⟩).startingBalance +
            ((Income.fvRowsFrom p rate k b m).get ⟨i, h⟩).contribution) * rate := by
  intro k
  induction k with
  | zero =>
    intro b m
    exact ⟨rfl, fun i h => absurd h (by simp [Income.fvRowsFrom])⟩
  | succ k ih =>
    intro b m
    constructor
    · simp only [Income.fvRowsFrom, List.length_cons]
      exact congrArg Nat.succ (ih _ (m + 1)).1
    · intro i h
      match i with
      | 0 => exact ⟨by simp [Income.fvRowsFrom], by simp [Income.fvRowsFrom], by
          simp [Income.fvRowsFrom]⟩
      | Nat.succ j =>
        have hj : j < (Income.fvRowsFrom p rate k
            (b + (Income.contributionFor p m : ℝ) +
              (b + (Income.contributionFor p m : ℝ)) * rate) (m + 1)).length := by
          have hlen := (ih (b + (Income.contributionFor p m : ℝ) +
            (b + (Income.contributionFor p m : ℝ)) * rate) (m + 1)).1
          simp only [Income.fvRowsFrom, List.length_cons] at h
          omega
        have hrec := (ih (b + (Income.contributionFor p m : ℝ) +
          (b + (Income.contributionFor p m : ℝ)) * rate) (m + 1)).2 j hj
        refine ⟨?_, ?_, ?_⟩
        · simpa [Income.fvRowsFrom, Nat.add_comm, Nat.add_assoc, Nat.add_left_comm]
            using hrec.1
        · simpa [Income.fvRowsFrom] using hrec.2.1
        · simpa [Income.fvRowsFrom] using hrec.2.2

/-- Claim C9: for every IncomeParams with a positive time horizon, the income
growth schedule has exactly one row per month from 1 to timeHorizonMonths, and
every row satisfies endingBalance = startingBalance + contribution + growth
with growth = (startingBalance + contribution) * monthlyGrowthRate, where
monthlyGrowthRate is (1 + annualGrowthRate/100)^(1/12) - 1. -/
theorem C9_theorem (p : Income.IncomeParams) (ht : 0 < p.timeHorizonMonths) :
    (Income.calculateFutureValue p).length = p.timeHorizonMonths ∧
    ∀ (i : ℕ) (h : i < (Income.calculateFutureValue p).length),
      ((Income.calculateFutureValue p).get ⟨i, h⟩).month = i + 1 ∧
      ((Income.calculateFutureValue p).get ⟨i, h⟩).endingBalance =
        ((Income.calculateFutureValue p).get ⟨i, h⟩).startingBalance +
          ((Income.calculateFutureValue p).get ⟨i, h⟩).contribution +
          ((Income.calculateFutureValue p).get ⟨i, h⟩).growth ∧
      ((Income.calculateFutureValue p).get ⟨i, h⟩).growth =
        (((Income.calculateFutureValue p).get ⟨i, h⟩).startingBalance +
          ((Income.calculateFutureValue p).get ⟨i, h⟩).contribution) *
          Income.monthlyGrowthRate p := by
  unfold Income.calculateFutureValue
  have h := fvRowsFrom_spec p (Income.monthlyGrowthRate p) p.timeHorizonMonths
    (p.initialAmount : ℝ) 1
  refine ⟨h.1, fun i hi => ?_⟩
  obtain ⟨h1, h2, h3⟩ := h.2 i hi
  exact ⟨by rw [h1, Nat.add_comm], h2, h3⟩

/-- Witness for C9 on a concrete three-month schedule. -/
theorem C9_witness :
    (Income.calculateFutureValue ⟨1000, 100, .monthly, 12, 3⟩).length = 3 ∧
    ((Income.calculateFutureValue ⟨1000, 100, .monthly, 12, 3⟩).get
      ⟨0, by simp [Income.calculateFutureValue, Income.fvRowsFrom]⟩).month = 1 := by
  refine ⟨(C9_theorem _ (by decide)).1, ?_⟩
  have h := (C9_theorem ⟨1000, 100, .monthly, 12, 3⟩ (by decide)).2 0
    (by simp [Income.calculateFutureValue, Income.fvRowsFrom])
  exact h.1

namespace LoanCalc

lemma round_mono_rat {x y : ℚ} (h : x ≤ y) : round x ≤ round y := by
  rw [round_eq, round_eq]
  exact Int.floor_mono (by linarith)

lemma round2_zero : round2 0 = 0 := by
  simp [round2]

lemma round2_mono {x y : ℚ} (h : x ≤ y) : round2 x ≤ round2 y := by
  unfold round2
  have := round_mono_rat (mul_le_mul_of_nonneg_right h (by norm_num : (0:ℚ) ≤ 100))
  have hcast : ((round (x * 100) : ℤ) : ℚ) ≤ ((round (y * 100) : ℤ) : ℚ) := by
    exact_mod_cast this
  linarith

lemma round2_nonneg {x : ℚ} (h : 0 ≤ x) : 0 ≤ round2 x := by
  have := round2_mono h
  rwa [round2_zero] at this

lemma abs_round2_sub_le (x : ℚ) : |round2 x - x| ≤ 1 / 200 := by
  unfold round2
  have h := abs_sub_round (x * 100)
  have h2 : ((round (x * 100) : ℤ) : ℚ) / 100 - x =
      -((x * 100 - ((round (x * 100) : ℤ) : ℚ)) / 100) := by ring
  rw [h2, abs_neg, abs_div, abs_of_pos (show (0 : ℚ) < 100 by norm_num)]
  linarith

lemma extraFor_nonneg (p : LoanParams) (he : 0 ≤ p.extraPayment) (m : ℕ) :
    0 ≤ extraFor p m := by
  unfold extraFor
  cases p.extraPaymentFrequency <;> dsimp only <;> split_ifs <;>
    first | exact he | exact le_refl 0

lemma loanNext_eq_max (p : LoanParams) (emi b : ℚ) (m : ℕ) :
    loanNext p emi b m = max (b * (1 + monthlyRate p) - emi - extraFor p m) 0 := by
  unfold loanNext loanPrincipal
  split_ifs with h
  · rw [max_eq_right (by nlinarith), sub_self]
  · rw [max_eq_left (by nlinarith)]
    ring

lemma loanNext_nonneg (p : LoanParams) (emi b : ℚ) (m : ℕ) :
    0 ≤ loanNext p emi b m := by
  rw [loanNext_eq_max]
  exact le_max_right _ _

lemma loanPrincipal_eq_sub (p : LoanParams) (emi b : ℚ) (m : ℕ) :
    loanPrincipal p emi b m = b - loanNext p emi b m := by
  unfold loanNext
  ring

lemma loanNext_le_self (p : LoanParams) (emi b : ℚ) (m : ℕ)
    (hb : 0 ≤ b) (hbr : b * monthlyRate p ≤ emi) (he : 0 ≤ extraFor p m) :
    loanNext p emi b m ≤ b := by
  rw [loanNext_eq_max]
  exact max_le (by nlinarith) hb

/-- Running exact balance of the amortization loop: loanBal p emi k is the
balance on entry of month k + 1. -/
def loanBal (p : LoanParams) (emi : ℚ) : ℕ → ℚ
  | 0 => p.loanAmount
  | k + 1 => loanNext p emi (loanBal p emi k) (k + 1)

lemma loanBal_nonneg (p : LoanParams) (emi : ℚ) (hP : 0 ≤ p.loanAmount) :
    ∀ k, 0 ≤ loanBal p emi k
  | 0 => hP
  | k + 1 => loanNext_nonneg p emi (loanBal p emi k) (k + 1)

end LoanCalc

namespace LoanCalc

/-- Ideal no-extra-payment balance recurrence b(k+1) = b(k)(1+r) - emi. -/
def gSeq (P emi r : ℚ) : ℕ → ℚ
  | 0 => P
  | k + 1 => gSeq P emi r k * (1 + r) - emi

lemma gSeq_closed (P emi r : ℚ) (n : ℕ)
    (hemi : emi * ((1 + r) ^ n - 1) = P * r * (1 + r) ^ n) :
    ∀ k, gSeq P emi r k * ((1 + r) ^ n - 1) = P * ((1 + r) ^ n - (1 + r) ^ k) := by
  intro k
  induction k with
  | zero =>
    show P * ((1 + r) ^ n - 1) = P * ((1 + r) ^ n - (1 + r) ^ 0)
    ring
  | succ k ih =>
    show (gSeq P emi r k * (1 + r) - emi) * ((1 + r) ^ n - 1) =
      P * ((1 + r) ^ n - (1 + r) ^ (k + 1))
    linear_combination (1 + r) * ih - hemi

lemma gSeq_nonneg_of_le (P emi r : ℚ) (n : ℕ) (hP : 0 ≤ P) (hr : 0 ≤ r)
    (hemi : emi * ((1 + r) ^ n - 1) = P * r * (1 + r) ^ n)
    (hA : 1 < (1 + r) ^ n) :
    ∀ k, k ≤ n → 0 ≤ gSeq P emi r k := by
  intro k hk
  have hcl := gSeq_closed P emi r n hemi k
  have hBk : (1 + r) ^ k ≤ (1 + r) ^ n := pow_le_pow_right₀ (by linarith) hk
  by_contra hneg
  push_neg at hneg
  have h1 : gSeq P emi r k * ((1 + r) ^ n - 1) < 0 :=
    mul_neg_of_neg_of_pos hneg (by linarith)
  rw [hcl] at h1
  have h2 : 0 ≤ P * ((1 + r) ^ n - (1 + r) ^ k) := mul_nonneg hP (by linarith)
  linarith

lemma gSeq_n_zero (P emi r : ℚ) (n : ℕ)
    (hemi : emi * ((1 + r) ^ n - 1) = P * r * (1 + r) ^ n)
    (hA : (1 + r) ^ n ≠ 1) :
    gSeq P emi r n = 0 := by
  have hcl := gSeq_closed P emi r n hemi n
  have hz : gSeq P emi r n * ((1 + r) ^ n - 1) = 0 := by rw [hcl]; ring
  rcases mul_eq_zero.mp hz with h | h
  · exact h
  · exact absurd (by linarith : (1 + r) ^ n = 1) hA

lemma gSeq_zero_rate (P emi : ℚ) : ∀ k, gSeq P emi 0 k = P - k * emi := by
  intro k
  induction k with
  | zero => show P = P - (0 : ℕ) * emi; push_cast; ring
  | succ k ih =>
    show gSeq P emi 0 k * (1 + 0) - emi = P - ((k + 1 : ℕ) : ℚ) * emi
    rw [ih]; push_cast; ring

lemma monthlyRate_nonneg (p : LoanParams) (hr : 0 ≤ p.annualInterestRate) :
    0 ≤ monthlyRate p := by
  unfold monthlyRate; positivity

lemma emi_zero_rate (p : LoanParams) (hP : 0 < p.loanAmount)
    (ht : 0 < p.loanTenureMonths) (h0 : p.annualInterestRate = 0) :
    calculateEMI p = p.loanAmount / (p.loanTenureMonths.toNat : ℚ) := by
  rw [C4_theorem p hP ht h0]
  conv_lhs => rw [← Int.toNat_of_nonneg ht.le]
  rw [Int.cast_natCast]

lemma emi_pos_rate (p : LoanParams) (hP : 0 < p.loanAmount)
    (ht : 0 < p.loanTenureMonths) (hrate : 0 < p.annualInterestRate) :
    calculateEMI p =
      p.loanAmount * monthlyRate p * (1 + monthlyRate p) ^ p.loanTenureMonths.toNat /
        ((1 + monthlyRate p) ^ p.loanTenureMonths.toNat - 1) := by
  have hmr : 0 < monthlyRate p := by unfold monthlyRate; positivity
  have h1 : max (0 : ℚ) p.loanAmount = p.loanAmount := max_eq_right hP.le
  have h2 : max (1 : ℤ) p.loanTenureMonths = p.loanTenureMonths := max_eq_right ht
  have hA : 1 < (1 + monthlyRate p) ^ p.loanTenureMonths.toNat :=
    one_lt_pow₀ (by linarith) (by omega)
  unfold calculateEMI
  rw [h1, h2]
  rw [if_neg (by push_neg; exact ⟨ne_of_gt hP, by omega⟩),
    if_neg (ne_of_gt hrate), if_neg (by intro hc; rw [sub_eq_zero] at hc; linarith)]

lemma emi_hemi (p : LoanParams) (hP : 0 < p.loanAmount) (ht : 0 < p.loanTenureMonths)
    (hrate : 0 < p.annualInterestRate) :
    calculateEMI p * ((1 + monthlyRate p) ^ p.loanTenureMonths.toNat - 1) =
      p.loanAmount * monthlyRate p * (1 + monthlyRate p) ^ p.loanTenureMonths.toNat := by
  have hmr : 0 < monthlyRate p := by unfold monthlyRate; positivity
  have hA : 1 < (1 + monthlyRate p) ^ p.loanTenureMonths.toNat :=
    one_lt_pow₀ (by linarith) (by omega)
  have hden : (1 + monthlyRate p) ^ p.loanTenureMonths.toNat - 1 ≠ 0 :=
    ne_of_gt (by linarith)
  rw [emi_pos_rate p hP ht hrate, div_mul_cancel₀ _ hden]

lemma emi_pos (p : LoanParams) (hP : 0 < p.loanAmount) (ht : 0 < p.loanTenureMonths)
    (hr0 : 0 ≤ p.annualInterestRate) : 0 < calculateEMI p := by
  rcases eq_or_lt_of_le hr0 with h | h
  · rw [emi_zero_rate p hP ht h.symm]
    have hn : (0 : ℚ) < (p.loanTenureMonths.toNat : ℚ) := by
      have : 0 < p.loanTenureMonths.toNat := by omega
      exact_mod_cast this
    positivity
  · have hmr : 0 < monthlyRate p := by unfold monthlyRate; positivity
    have hA : 1 < (1 + monthlyRate p) ^ p.loanTenureMonths.toNat :=
      one_lt_pow₀ (by linarith) (by omega)
    rw [emi_pos_rate p hP ht h]
    apply div_pos
    · have : (0 : ℚ) < (1 + monthlyRate p) ^ p.loanTenureMonths.toNat := by positivity
      positivity
    · linarith

lemma emi_ge_Pr (p : LoanParams) (hP : 0 < p.loanAmount) (ht : 0 < p.loanTenureMonths)
    (hr0 : 0 ≤ p.annualInterestRate) :
    p.loanAmount * monthlyRate p ≤ calculateEMI p := by
  rcases eq_or_lt_of_le hr0 with h | h
  · have hmr0 : monthlyRate p = 0 := by unfold monthlyRate; rw [← h]; norm_num
    rw [hmr0, mul_zero]
    exact (emi_pos p hP ht hr0).le
  · have hmr : 0 < monthlyRate p := by unfold monthlyRate; positivity
    have hA : 1 < (1 + monthlyRate p) ^ p.loanTenureMonths.toNat :=
      one_lt_pow₀ (by linarith) (by omega)
    rw [emi_pos_rate p hP ht h, le_div_iff (by linarith)]
    nlinarith [mul_pos hP hmr]

lemma loanBal_le_gSeq (p : LoanParams) (emi : ℚ) (n : ℕ)
    (hr : 0 ≤ monthlyRate p) (hex : ∀ m, 0 ≤ extraFor p m)
    (hg : ∀ k, k ≤ n → 0 ≤ gSeq p.loanAmount emi (monthlyRate p) k) :
    ∀ k, k ≤ n → loanBal p emi k ≤ gSeq p.loanAmount emi (monthlyRate p) k := by
  intro k
  induction k with
  | zero => intro _; exact le_refl _
  | succ k ih =>
    intro hk
    have ihk := ih (by omega)
    show loanNext p emi (loanBal p emi k) (k + 1) ≤ _
    rw [loanNext_eq_max]
    apply max_le
    · have h1 : loanBal p emi k * (1 + monthlyRate p) ≤
          gSeq p.loanAmount emi (monthlyRate p) k * (1 + monthlyRate p) :=
        mul_le_mul_of_nonneg_right ihk (by linarith)
      have h2 := hex (k + 1)
      show loanBal p emi k * (1 + monthlyRate p) - emi - extraFor p (k + 1) ≤
        gSeq p.loanAmount emi (monthlyRate p) k * (1 + monthlyRate p) - emi
      linarith
    · exact hg (k + 1) hk

/-- With the exact EMI of the source formula, the exact running balance of the
amortization loop is 0 after tenure months, whatever the extra payments. -/
lemma loanBal_tenure_zero (p : LoanParams) (hP : 0 < p.loanAmount)
    (ht : 0 < p.loanTenureMonths) (hr0 : 0 ≤ p.annualInterestRate)
    (he : 0 ≤ p.extraPayment) :
    loanBal p (calculateEMI p) p.loanTenureMonths.toNat = 0 := by
  have hex : ∀ m, 0 ≤ extraFor p m := extraFor_nonneg p he
  have hmr0 : 0 ≤ monthlyRate p := monthlyRate_nonneg p hr0
  have hgz : gSeq p.loanAmount (calculateEMI p) (monthlyRate p)
      p.loanTenureMonths.toNat = 0 ∧
      ∀ k, k ≤ p.loanTenureMonths.toNat →
        0 ≤ gSeq p.loanAmount (calculateEMI p) (monthlyRate p) k := by
    rcases eq_or_lt_of_le hr0 with h | h
    · have hmr : monthlyRate p = 0 := by unfold monthlyRate; rw [← h]; norm_num
      have hnn : (0 : ℚ) < (p.loanTenureMonths.toNat : ℚ) := by
        have : 0 < p.loanTenureMonths.toNat := by omega
        exact_mod_cast this
      have hemi : calculateEMI p = p.loanAmount / (p.loanTenureMonths.toNat : ℚ) :=
        emi_zero_rate p hP ht h.symm
      constructor
      · rw [hmr, gSeq_zero_rate, hemi, mul_div_cancel₀ _ (ne_of_gt hnn), sub_self]
      · intro k hk
        rw [hmr, gSeq_zero_rate, hemi]
        have hk' : (k : ℚ) ≤ (p.loanTenureMonths.toNat : ℚ) := by exact_mod_cast hk
        have hstep : (k : ℚ) * (p.loanAmount / (p.loanTenureMonths.toNat : ℚ)) ≤
            (p.loanTenureMonths.toNat : ℚ) *
              (p.loanAmount / (p.loanTenureMonths.toNat : ℚ)) :=
          mul_le_mul_of_nonneg_right hk' (by positivity)
        rw [mul_div_cancel₀ _ (ne_of_gt hnn)] at hstep
        linarith
    · have hA : 1 < (1 + monthlyRate p) ^ p.loanTenureMonths.toNat :=
        one_lt_pow₀ (by
          have : 0 < monthlyRate p := by unfold monthlyRate; positivity
          linarith) (by omega)
      have hemi := emi_hemi p hP ht h
      exact ⟨gSeq_n_zero _ _ _ _ hemi (ne_of_gt hA),
        gSeq_nonneg_of_le _ _ _ _ hP.le hmr0 hemi hA⟩
  have hle := loanBal_le_gSeq p (calculateEMI p) p.loanTenureMonths.toNat
    hmr0 hex hgz.2 p.loanTenureMonths.toNat (le_refl _)
  rw [hgz.1] at hle
  exact le_antisymm hle (loanBal_nonneg p _ hP.le _)

end LoanCalc

namespace LoanCalc

lemma scheduleFrom_nonpos (p : LoanParams) (emi : ℚ) (b : ℚ) (hb : ¬ 0 < b) :
    ∀ fuel m, scheduleFrom p emi fuel b m = [] := by
  intro fuel m
  cases fuel with
  | zero => rfl
  | succ f =>
    simp only [scheduleFrom]
    rw [if_neg (fun hc => hb hc.1)]

/-- Core facts of the amortization loop along the exact balance sequence:
starting at month m + 1 with the balance after m months still positive and
fuel equal to the remaining months, the emitted rows are nonempty, at most
fuel many, the last row shows balance 0, and the rounded principal components
sum to the entry balance up to 1/200 per row. -/
lemma schedMain (p : LoanParams) (emi : ℚ)
    (hq : ∀ k, 0 ≤ loanBal p emi k)
    (hzero : loanBal p emi p.loanTenureMonths.toNat = 0) :
    ∀ fuel m, m + fuel = p.loanTenureMonths.toNat → 0 < loanBal p emi m →
      scheduleFrom p emi fuel (loanBal p emi m) (m + 1) ≠ [] ∧
      (scheduleFrom p emi fuel (loanBal p emi m) (m + 1)).length ≤ fuel ∧
      (∃ lastRow,
        (scheduleFrom p emi fuel (loanBal p emi m) (m + 1)).getLast? = some lastRow ∧
        lastRow.remainingBalance = 0) ∧
      |((scheduleFrom p emi fuel (loanBal p emi m) (m + 1)).map
          (fun r => r.principal)).sum - loanBal p emi m| ≤
        ((scheduleFrom p emi fuel (loanBal p emi m) (m + 1)).length : ℚ) / 200 := by
  intro fuel
  induction fuel with
  | zero =>
    intro m hm hpos
    exfalso
    rw [show m = p.loanTenureMonths.toNat by omega, hzero] at hpos
    exact lt_irrefl 0 hpos
  | succ fuel ih =>
    intro m hm hpos
    have hguard : 0 < loanBal p emi m ∧ ((m + 1 : ℕ) : ℤ) ≤ p.loanTenureMonths := by
      refine ⟨hpos, ?_⟩
      omega
    have hnext : loanNext p emi (loanBal p emi m) (m + 1) = loanBal p emi (m + 1) := rfl
    simp only [scheduleFrom]
    rw [if_pos hguard, hnext]
    by_cases h1 : 0 < loanBal p emi (m + 1)
    · obtain ⟨hne, hlen, ⟨lastRow, hlast, hlast0⟩, hsum⟩ := ih (m + 1) (by omega) h1
      refine ⟨by simp, ?_, ?_, ?_⟩
      · simp only [List.length_cons]
        omega
      · rcases hlist : scheduleFrom p emi fuel (loanBal p emi (m + 1)) (m + 1 + 1)
          with _ | ⟨a, t⟩
        · exact absurd hlist hne
        · refine ⟨lastRow, ?_, hlast0⟩
          rw [List.getLast?_cons_cons, ← hlist]
          exact hlast
      · simp only [List.map_cons, List.sum_cons, List.length_cons]
        have hd : loanPrincipal p emi (loanBal p emi m) (m + 1) =
            loanBal p emi m - loanBal p emi (m + 1) := by
          rw [loanPrincipal_eq_sub, hnext]
        have htri := abs_round2_sub_le (loanPrincipal p emi (loanBal p emi m) (m + 1))
        have key : round2 (loanPrincipal p emi (loanBal p emi m) (m + 1)) +
            ((scheduleFrom p emi fuel (loanBal p emi (m + 1)) (m + 1 + 1)).map
              (fun r => r.principal)).sum - loanBal p emi m =
            (round2 (loanPrincipal p emi (loanBal p emi m) (m + 1)) -
              loanPrincipal p emi (loanBal p emi m) (m + 1)) +
            (((scheduleFrom p emi fuel (loanBal p emi (m + 1)) (m + 1 + 1)).map
              (fun r => r.principal)).sum - loanBal p emi (m + 1)) := by
          rw [hd]; ring
        rw [key]
        refine le_trans (abs_add _ _) ?_
        have hb := add_le_add htri hsum
        push_cast
        linarith
    · have hbz : loanBal p emi (m + 1) = 0 := le_antisymm (not_lt.mp h1) (hq (m + 1))
      rw [hbz, scheduleFrom_nonpos p emi 0 (lt_irrefl 0) fuel (m + 1 + 1)]
      have hd : loanPrincipal p emi (loanBal p emi m) (m + 1) = loanBal p emi m := by
        rw [loanPrincipal_eq_sub, hnext, hbz, sub_zero]
      refine ⟨by simp, by simp, ?_, ?_⟩
      · refine ⟨_, List.getLast?_singleton _, ?_⟩
        show round2 0 = 0
        exact round2_zero
      · simp only [List.map_cons, List.map_nil, List.sum_cons, List.sum_nil,
          List.length_cons, List.length_nil, hd]
        have h200 := abs_round2_sub_le (loanBal p emi m)
        have heq : round2 (loanBal p emi m) + 0 - loanBal p emi m =
            round2 (loanBal p emi m) - loanBal p emi m := by ring
        rw [heq]
        refine h200.trans ?_
        norm_num

end LoanCalc

namespace LoanCalc

lemma generate_eq (p : LoanParams) (hP : 0 < p.loanAmount)
    (ht : 0 < p.loanTenureMonths) (hr0 : 0 ≤ p.annualInterestRate) :
    generateAmortizationSchedule p =
      scheduleFrom p (calculateEMI p) p.loanTenureMonths.toNat p.loanAmount 1 := by
  unfold generateAmortizationSchedule
  rw [if_neg (ne_of_gt (emi_pos p hP ht hr0))]

lemma sched_chain (p : LoanParams) (emi : ℚ) (hr : 0 ≤ monthlyRate p)
    (hex : ∀ m, 0 ≤ extraFor p m) :
    ∀ fuel b m, 0 ≤ b → b * monthlyRate p ≤ emi →
      List.Chain (fun x y => y ≤ x) (round2 b)
        ((scheduleFrom p emi fuel b m).map (fun r => r.remainingBalance)) := by
  intro fuel
  induction fuel with
  | zero => intro b m _ _; exact List.Chain.nil
  | succ fuel ih =>
    intro b m hb hbr
    simp only [scheduleFrom]
    split_ifs with hg
    · simp only [List.map_cons]
      refine List.Chain.cons ?_ (ih _ _ (loanNext_nonneg p emi b m) ?_)
      · exact round2_mono (loanNext_le_self p emi b m hb hbr (hex m))
      · calc loanNext p emi b m * monthlyRate p ≤ b * monthlyRate p :=
            mul_le_mul_of_nonneg_right (loanNext_le_self p emi b m hb hbr (hex m)) hr
          _ ≤ emi := hbr
    · exact List.Chain.nil

lemma sched_balance_nonneg (p : LoanParams) (emi : ℚ) :
    ∀ fuel b m r, r ∈ scheduleFrom p emi fuel b m → 0 ≤ r.remainingBalance := by
  intro fuel
  induction fuel with
  | zero => intro b m r hr; simp [scheduleFrom] at hr
  | succ fuel ih =>
    intro b m r hr
    simp only [scheduleFrom] at hr
    split_ifs at hr with hg
    · rcases List.mem_cons.mp hr with h | h
      · subst h
        exact round2_nonneg (loanNext_nonneg p emi b m)
      · exact ih _ _ r h
    · simp at hr

/-- Claim C2: for valid parameters the remaining balance column of the
schedule is non-increasing row to row, never negative, the schedule is at most
tenure months long and its last row shows remaining balance exactly 0. -/
theorem C2_theorem (p : LoanParams) (hP : 0 < p.loanAmount)
    (ht : 0 < p.loanTenureMonths) (hr0 : 0 ≤ p.annualInterestRate)
    (he : 0 ≤ p.extraPayment) :
    (∀ (i : ℕ) (hi : i + 1 < (generateAmortizationSchedule p).length),
      ((generateAmortizationSchedule p).get ⟨i + 1, hi⟩).remainingBalance ≤
        ((generateAmortizationSchedule p).get ⟨i, by omega⟩).remainingBalance) ∧
    (∀ r ∈ generateAmortizationSchedule p, 0 ≤ r.remainingBalance) ∧
    (generateAmortizationSchedule p).length ≤ p.loanTenureMonths.toNat ∧
    (∃ lastRow, (generateAmortizationSchedule p).getLast? = some lastRow ∧
      lastRow.remainingBalance = 0) := by
  have hgen := generate_eq p hP ht hr0
  have H := schedMain p (calculateEMI p) (loanBal_nonneg p _ hP.le)
    (loanBal_tenure_zero p hP ht hr0 he) p.loanTenureMonths.toNat 0 (by omega) hP
  simp only [show loanBal p (calculateEMI p) 0 = p.loanAmount from rfl, zero_add] at H
  rw [hgen]
  refine ⟨?_, ?_, H.2.1, H.2.2.1⟩
  · intro i hi
    have hch := sched_chain p (calculateEMI p) (monthlyRate_nonneg p hr0)
      (extraFor_nonneg p he) p.loanTenureMonths.toNat p.loanAmount 1 hP.le
      (emi_ge_Pr p hP ht hr0)
    have hchcons : List.Chain' (fun x y => y ≤ x) (round2 p.loanAmount ::
        (scheduleFrom p (calculateEMI p) p.loanTenureMonths.toNat p.loanAmount 1).map
          (fun r => r.remainingBalance)) := hch
    have hch2 := hchcons.tail
    simp only [List.tail_cons] at hch2
    have hmap := List.chain'_iff_get.mp hch2 i (by rw [List.length_map]; omega)
    simp only [List.get_eq_getElem, List.getElem_map] at hmap
    simp only [List.get_eq_getElem]
    exact hmap
  · intro r hr
    exact sched_balance_nonneg p (calculateEMI p) _ _ _ r hr

end LoanCalc

/-- Witness for C2 on a concrete two-year loan with extra payments. -/
theorem C2_witness :
    (LoanCalc.generateAmortizationSchedule ⟨100000, 12, 24, 1000, .monthly, 1⟩).length ≤ 24 ∧
    ((LoanCalc.generateAmortizationSchedule
        ⟨100000, 12, 24, 1000, .monthly, 1⟩).getLast?.map
      (fun r => r.remainingBalance)) = some 0 := by
  have H := LoanCalc.C2_theorem ⟨100000, 12, 24, 1000, .monthly, 1⟩
    (by norm_num) (by norm_num) (by norm_num) (by norm_num)
  obtain ⟨lastRow, hl, h0⟩ := H.2.2.2
  refine ⟨?_, by rw [hl]; simp [h0]⟩
  have h24 : ((⟨100000, 12, 24, 1000, .monthly, 1⟩ :
      LoanCalc.LoanParams).loanTenureMonths).toNat = 24 := rfl
  rw [← h24]
  exact H.2.2.1

/-- Counterexample for claim C1.  First input (zero-rate loan of 1200 over 12
months with a monthly extra payment of 100): the row principal component
already includes the extra payment, so summing principal plus extraPayment
double-counts the extra and gives 1800, not 1200 within 0.01.  Second input
(zero-rate loan of 100 over 6 months, no extra): each stored principal is
rounded to 16.67, so even the principal components alone sum to 100.02,
outside the claimed 0.01 tolerance. -/
theorem C1_counterexample :
    ¬ (|((LoanCalc.generateAmortizationSchedule ⟨1200, 0, 12, 100, .monthly, 1⟩).map
        (fun r => r.principal + r.extraPayment)).sum - (1200 : ℚ)| ≤ 1 / 100) ∧
    ¬ (|((LoanCalc.generateAmortizationSchedule ⟨100, 0, 6, 0, .monthly, 1⟩).map
        (fun r => r.principal)).sum - (100 : ℚ)| ≤ 1 / 100) := by
  constructor
  · norm_num [LoanCalc.generateAmortizationSchedule, LoanCalc.calculateEMI,
      LoanCalc.scheduleFrom, LoanCalc.loanPrincipal, LoanCalc.loanNext,
      LoanCalc.extraFor, LoanCalc.monthlyRate, LoanCalc.round2, round_eq,
      Int.toNat_ofNat]
  · norm_num [LoanCalc.generateAmortizationSchedule, LoanCalc.calculateEMI,
      LoanCalc.scheduleFrom, LoanCalc.loanPrincipal, LoanCalc.loanNext,
      LoanCalc.extraFor, LoanCalc.monthlyRate, LoanCalc.round2, round_eq,
      Int.toNat_ofNat]
    rw [abs_of_nonneg (by norm_num : (0 : ℚ) ≤ 1 / 50)]
    norm_num

/-- Claim C1 as amended: for valid parameters the schedule is nonempty, the
sum of the stored principal components (each of which already includes the
extra payment applied that month, and each rounded to two decimals for
display) equals the original principal within 0.005 per row, and the final row
absorbs the remainder: its remaining balance is exactly 0 and no reduction
drives the balance negative. -/
theorem C1_theorem (p : LoanCalc.LoanParams) (hP : 0 < p.loanAmount)
    (ht : 0 < p.loanTenureMonths) (hr0 : 0 ≤ p.annualInterestRate)
    (he : 0 ≤ p.extraPayment) :
    LoanCalc.generateAmortizationSchedule p ≠ [] ∧
    |((LoanCalc.generateAmortizationSchedule p).map (fun r => r.principal)).sum -
        p.loanAmount| ≤
      ((LoanCalc.generateAmortizationSchedule p).length : ℚ) / 200 ∧
    (∃ lastRow, (LoanCalc.generateAmortizationSchedule p).getLast? = some lastRow ∧
      lastRow.remainingBalance = 0) := by
  have hgen := LoanCalc.generate_eq p hP ht hr0
  have H := LoanCalc.schedMain p (LoanCalc.calculateEMI p)
    (LoanCalc.loanBal_nonneg p _ hP.le)
    (LoanCalc.loanBal_tenure_zero p hP ht hr0 he) p.loanTenureMonths.toNat 0
    (by omega) hP
  simp only [show LoanCalc.loanBal p (LoanCalc.calculateEMI p) 0 = p.loanAmount from rfl,
    zero_add] at H
  rw [hgen]
  exact ⟨H.1, H.2.2.2, H.2.2.1⟩

/-- Witness for C1 on a concrete two-year loan with extra payments. -/
theorem C1_witness :
    LoanCalc.generateAmortizationSchedule ⟨200000, 10, 24, 500, .quarterly, 3⟩ ≠ [] ∧
    |((LoanCalc.generateAmortizationSchedule
        ⟨200000, 10, 24, 500, .quarterly, 3⟩).map (fun r => r.principal)).sum -
        (200000 : ℚ)| ≤
      ((LoanCalc.generateAmortizationSchedule
        ⟨200000, 10, 24, 500, .quarterly, 3⟩).length : ℚ) / 200 := by
  have H := C1_theorem ⟨200000, 10, 24, 500, .quarterly, 3⟩
    (by norm_num) (by norm_num) (by norm_num) (by norm_num)
  exact ⟨H.1, H.2.1⟩

namespace LoanCalc

lemma extraFor_mono (p : LoanParams) (e e' : ℚ) (hee : e ≤ e') (m : ℕ) :
    extraFor { p with extraPayment := e } m ≤ extraFor { p with extraPayment := e' } m := by
  unfold extraFor
  dsimp only
  cases p.extraPaymentFrequency <;> dsimp only <;> split_ifs <;>
    first | exact hee | exact le_refl 0

lemma loanNext_mono (q1 q2 : LoanParams) (emi b1 b2 : ℚ) (m : ℕ)
    (hrate : monthlyRate q2 = monthlyRate q1)
    (hext : extraFor q1 m ≤ extraFor q2 m)
    (hr : 0 ≤ monthlyRate q1) (hb : b2 ≤ b1) :
    loanNext q2 emi b2 m ≤ loanNext q1 emi b1 m := by
  rw [loanNext_eq_max, loanNext_eq_max, hrate]
  refine max_le_max ?_ (le_refl 0)
  have hmul : b2 * (1 + monthlyRate q1) ≤ b1 * (1 + monthlyRate q1) :=
    mul_le_mul_of_nonneg_right hb (by linarith)
  linarith

lemma sched_length_le (q1 q2 : LoanParams) (emi : ℚ)
    (hrate : monthlyRate q2 = monthlyRate q1)
    (htt : q2.loanTenureMonths = q1.loanTenureMonths)
    (hext : ∀ m, extraFor q1 m ≤ extraFor q2 m)
    (hr : 0 ≤ monthlyRate q1) :
    ∀ fuel m b1 b2, b2 ≤ b1 →
      (scheduleFrom q2 emi fuel b2 m).length ≤ (scheduleFrom q1 emi fuel b1 m).length := by
  intro fuel
  induction fuel with
  | zero => intro m b1 b2 _; exact le_refl 0
  | succ fuel ih =>
    intro m b1 b2 hb
    simp only [scheduleFrom]
    by_cases hg2 : 0 < b2 ∧ (m : ℤ) ≤ q2.loanTenureMonths
    · have hg1 : 0 < b1 ∧ (m : ℤ) ≤ q1.loanTenureMonths :=
        ⟨lt_of_lt_of_le hg2.1 hb, htt ▸ hg2.2⟩
      rw [if_pos hg2, if_pos hg1]
      simp only [List.length_cons]
      exact Nat.succ_le_succ
        (ih (m + 1) _ _ (loanNext_mono q1 q2 emi b1 b2 m hrate (hext m) hr hb))
    · rw [if_neg hg2]
      simp

lemma sched_sumI_nonneg (q : LoanParams) (emi : ℚ) (hr : 0 ≤ monthlyRate q) :
    ∀ fuel b m, 0 ≤ b →
      0 ≤ ((scheduleFrom q emi fuel b m).map (fun r => r.interest)).sum := by
  intro fuel
  induction fuel with
  | zero => intro b m _; exact le_refl 0
  | succ fuel ih =>
    intro b m hb
    simp only [scheduleFrom]
    split_ifs with hg
    · simp only [List.map_cons, List.sum_cons]
      have h1 : 0 ≤ round2 (b * monthlyRate q) := round2_nonneg (mul_nonneg hb hr)
      have h2 := ih (loanNext q emi b m) (m + 1) (loanNext_nonneg q emi b m)
      linarith
    · exact le_refl 0

lemma sched_sumI_le (q1 q2 : LoanParams) (emi : ℚ)
    (hrate : monthlyRate q2 = monthlyRate q1)
    (htt : q2.loanTenureMonths = q1.loanTenureMonths)
    (hext : ∀ m, extraFor q1 m ≤ extraFor q2 m)
    (hr : 0 ≤ monthlyRate q1) :
    ∀ fuel m b1 b2, 0 ≤ b2 → b2 ≤ b1 →
      ((scheduleFrom q2 emi fuel b2 m).map (fun r => r.interest)).sum ≤
        ((scheduleFrom q1 emi fuel b1 m).map (fun r => r.interest)).sum := by
  intro fuel
  induction fuel with
  | zero => intro m b1 b2 _ _; exact le_refl 0
  | succ fuel ih =>
    intro m b1 b2 hb2 hb
    simp only [scheduleFrom]
    by_cases hg2 : 0 < b2 ∧ (m : ℤ) ≤ q2.loanTenureMonths
    · have hg1 : 0 < b1 ∧ (m : ℤ) ≤ q1.loanTenureMonths :=
        ⟨lt_of_lt_of_le hg2.1 hb, htt ▸ hg2.2⟩
      rw [if_pos hg2, if_pos hg1]
      simp only [List.map_cons, List.sum_cons]
      have hhead : round2 (b2 * monthlyRate q2) ≤ round2 (b1 * monthlyRate q1) := by
        rw [hrate]
        exact round2_mono (mul_le_mul_of_nonneg_right hb hr)
      have htail := ih (m + 1) _ _ (loanNext_nonneg q2 emi b2 m)
        (loanNext_mono q1 q2 emi b1 b2 m hrate (hext m) hr hb)
      linarith
    · rw [if_neg hg2]
      simp only [List.map_nil, List.sum_nil]
      exact sched_sumI_nonneg q1 emi hr (fuel + 1) b1 m (le_trans hb2 hb) |>.trans
        (le_of_eq (by simp only [scheduleFrom]))
  
lemma summary_totalInterest (S : List AmortizationRow) :
    (calculateLoanSummary S).totalInterest = (S.map (fun r => r.interest)).sum := by
  cases S <;> rfl

lemma summary_totalTenure (S : List AmortizationRow) :
    (calculateLoanSummary S).totalTenureMonths = S.length := by
  cases S <;> rfl

end LoanCalc

/-- Claim C8: for two parameter records identical except for the extra-payment
amount, the schedule generated with the larger extra payment has a total
interest no greater than, and no more rows than, the schedule generated with
the smaller extra payment. -/
theorem C8_theorem (p : LoanCalc.LoanParams) (e e' : ℚ) (hP : 0 ≤ p.loanAmount)
    (hr0 : 0 ≤ p.annualInterestRate) (he : 0 ≤ e) (hee : e ≤ e') :
    (LoanCalc.calculateLoanSummary (LoanCalc.generateAmortizationSchedule
        { p with extraPayment := e' })).totalInterest ≤
      (LoanCalc.calculateLoanSummary (LoanCalc.generateAmortizationSchedule
        { p with extraPayment := e })).totalInterest ∧
    (LoanCalc.calculateLoanSummary (LoanCalc.generateAmortizationSchedule
        { p with extraPayment := e' })).totalTenureMonths ≤
      (LoanCalc.calculateLoanSummary (LoanCalc.generateAmortizationSchedule
        { p with extraPayment := e })).totalTenureMonths := by
  have hemi : LoanCalc.calculateEMI { p with extraPayment := e' } =
      LoanCalc.calculateEMI { p with extraPayment := e } := rfl
  have hrate : LoanCalc.monthlyRate { p with extraPayment := e' } =
      LoanCalc.monthlyRate { p with extraPayment := e } := rfl
  have htt : ({ p with extraPayment := e' } : LoanCalc.LoanParams).loanTenureMonths =
      ({ p with extraPayment := e } : LoanCalc.LoanParams).loanTenureMonths := rfl
  have hext := LoanCalc.extraFor_mono p e e' hee
  have hr1 : 0 ≤ LoanCalc.monthlyRate { p with extraPayment := e } :=
    LoanCalc.monthlyRate_nonneg _ hr0
  unfold LoanCalc.generateAmortizationSchedule
  rw [hemi]
  by_cases hz : LoanCalc.calculateEMI { p with extraPayment := e } = 0
  · rw [if_pos hz, if_pos hz]
    exact ⟨le_refl _, le_refl _⟩
  · rw [if_neg hz, if_neg hz]
    constructor
    · rw [LoanCalc.summary_totalInterest, LoanCalc.summary_totalInterest]
      exact LoanCalc.sched_sumI_le _ _ _ hrate htt hext hr1 _ 1 _ _ hP (le_refl _)
    · rw [LoanCalc.summary_totalTenure, LoanCalc.summary_totalTenure]
      exact LoanCalc.sched_length_le _ _ _ hrate htt hext hr1 _ 1 _ _ (le_refl _)

/-- Witness for C8 on a concrete loan comparing extra payments 0 and 1000. -/
theorem C8_witness :
    (LoanCalc.calculateLoanSummary (LoanCalc.generateAmortizationSchedule
        ⟨500000, 9, 36, 1000, .monthly, 1⟩)).totalInterest ≤
      (LoanCalc.calculateLoanSummary (LoanCalc.generateAmortizationSchedule
        ⟨500000, 9, 36, 0, .monthly, 1⟩)).totalInterest ∧
    (LoanCalc.calculateLoanSummary (LoanCalc.generateAmortizationSchedule
        ⟨500000, 9, 36, 1000, .monthly, 1⟩)).totalTenureMonths ≤
      (LoanCalc.calculateLoanSummary (LoanCalc.generateAmortizationSchedule
        ⟨500000, 9, 36, 0, .monthly, 1⟩)).totalTenureMonths :=
  C8_theorem ⟨500000, 9, 36, 0, .monthly, 1⟩ 0 1000
    (by norm_num) (by norm_num) (le_refl 0) (by norm_num)
